import Mathlib

/-!
Shallow embedding of the windex crate (branded in-bounds indexing for
sequential containers, with a UTF-8 instantiation).

The repository keeps several overlapping iterations of the same modules.
Each Lean namespace below names the source file the definitions were
translated from:

* `TraitsRs`     — src/traits.rs        (`TrustedItem` default methods)
* `Utf8Rs`       — src/utf8.rs          (mask-based `is_leading_byte`)
* `ImplRs`       — src/impl.rs          (signed `is_leading_byte`, `Character` item model, `align`)
* `ParticleRs`   — src/particle/mod.rs  (`Vettable` impls for raw integers)
* `ContainerRs`  — src/container.rs     (`Container::vet`, `Container::vet_or_end`)
* `IndexRs`      — src/index.rs         (first-generation `Range`)
* `IndexRangeRs` — src/index/range.rs   (second-generation `Range`)
* `SimpleRs`     — src/particle/simple/range.rs
* `PerfectRs`    — src/particle/perfect/range.rs

Raw `u32` offsets are modelled as `Nat` (all offsets of interest fit in
`u32`, and no claim exercises `u32` overflow or the `u32::try_from`
failure path for wider integer types).  The type-level emptiness proof
parameter (`NonEmpty` / `Unknown`) is modelled as a data field, and the
type-level `ProofAdd` computation as the function `proofAdd`.  The brand
lifetime `'id` carries no runtime data and is irrelevant to every claim,
so it is omitted.
-/

/-- Emptiness proof markers, src/proof.rs lines 25-31. -/
inductive Emptiness where
  | NonEmpty : Emptiness
  | Unknown : Emptiness
deriving DecidableEq, Repr

/-- Combination of two emptiness proofs, src/proof.rs `ProofAdd`
(lines 33-43): `(NonEmpty, Q) -> NonEmpty`, `(Unknown, Q) -> Q`. -/
def proofAdd : Emptiness → Emptiness → Emptiness
  | .NonEmpty, _ => .NonEmpty
  | .Unknown, q => q

/-- Error type for vetting, src/index.rs lines 334-341 (identical enum in
src/particle/mod.rs lines 9-16). -/
inductive IndexError where
  | OutOfBounds : IndexError
  | Invalid : IndexError
deriving DecidableEq, Repr

/-- A branded index: raw unit offset plus its emptiness proof (the proof is
a type parameter in Rust; here it is data). -/
structure Ix where
  idx : Nat
  proof : Emptiness
deriving DecidableEq, Repr

/-- Rust `Index::erased` (src/index.rs lines 60-64): drop the emptiness proof. -/
def Ix.erased (i : Ix) : Ix := ⟨i.idx, .Unknown⟩

/-- A branded range: start and end unit offsets plus the emptiness proof.
The Rust field `end` is spelled `end_` (`end` is reserved in Lean). -/
structure Rng where
  start : Nat
  end_ : Nat
  proof : Emptiness
deriving DecidableEq, Repr

/-- Model of what a `TrustedItem` instantiation provides to the generic
code: the container's `unit_len` and the item-boundary test used by
`vet_inbounds`.  Both concrete `vet_inbounds` implementations
(`Character` in src/impl.rs lines 200-214 and the `TrustedUnit`
forwarding in src/traits.rs lines 145-150) return `Some` of the queried
offset itself with a `NonEmpty` proof when the test passes, and `None`
otherwise, so a boolean captures them faithfully. -/
structure TrustedItemModel where
  unitLen : Nat
  vetInbounds : Nat → Bool

namespace Utf8Rs

/-- Mask-based UTF-8 leading byte test, src/utf8.rs lines 12-17: accepts
top-bit patterns 0xxxxxxx, 110xxxxx, 1110xxxx, 11110xxx. -/
def is_leading_byte (b : Nat) : Bool :=
  b &&& 0x80 == 0x00 ||
  b &&& 0xE0 == 0xC0 ||
  b &&& 0xF0 == 0xE0 ||
  b &&& 0xF8 == 0xF0

end Utf8Rs

/-- Reinterpretation of a byte value (0..=255) as a signed 8-bit integer,
for `byte as i8` in src/impl.rs line 141. -/
def asI8 (b : Nat) : Int :=
  if b < 128 then (b : Int) else (b : Int) - 256

namespace ImplRs

/-- Signed-comparison UTF-8 leading byte test, src/impl.rs lines 136-142:
`(byte as i8) >= -0x40`. -/
def is_leading_byte (b : Nat) : Bool :=
  decide (-0x40 ≤ asI8 b)

end ImplRs

/-- The item model of `Character` over `str` (src/impl.rs lines 197-214):
`unit_len` is the byte length, and `vet_inbounds idx` reads the byte at
`idx` (in bounds by the caller's proof) and tests `is_leading_byte`.
The byte string is a list of byte values. -/
def strModel (s : List Nat) : TrustedItemModel :=
  ⟨s.length, fun i => ImplRs.is_leading_byte (s.getD i 0)⟩

/-- The item model of a fixed-width unit container `[T]`
(src/traits.rs lines 145-150, `unit_vet_inbounds` always succeeds). -/
def unitModel (len : Nat) : TrustedItemModel :=
  ⟨len, fun _ => true⟩

namespace TraitsRs

/-- Default `TrustedItem::vet`, src/traits.rs lines 42-56:
`idx == len` gives an `Unknown`-proof index at the end; `idx < len`
delegates to `vet_inbounds`, erasing the `NonEmpty` proof on success and
reporting `Invalid` on failure; otherwise `OutOfBounds`. -/
def vet (m : TrustedItemModel) (idx : Nat) : Except IndexError Ix :=
  if idx = m.unitLen then .ok ⟨idx, .Unknown⟩
  else if idx < m.unitLen then
    if m.vetInbounds idx then .ok (Ix.erased ⟨idx, .NonEmpty⟩)
    else .error .Invalid
  else .error .OutOfBounds

end TraitsRs

namespace ParticleRs

/-- Rust `Vettable::vet_in_container` for raw integers (the `vettable_int`
macro, src/particle/mod.rs lines 178-193): `ix < len` delegates to
`vet_inbounds` (`Invalid` on failure, `NonEmpty` index on success);
everything else, including `ix == len`, is `OutOfBounds`. -/
def vet_in_container (m : TrustedItemModel) (ix : Nat) : Except IndexError Ix :=
  if ix < m.unitLen then
    if m.vetInbounds ix then .ok ⟨ix, .NonEmpty⟩
    else .error .Invalid
  else .error .OutOfBounds

/-- Rust `Vettable::vet_in_container` for `ops::Range<int>`
(src/particle/mod.rs lines 206-224): vet both endpoints with the item
model's `vet`, then build a `perfect::Range` from the two raw offsets
with an `Unknown` proof — with no check that `start <= end`. -/
def vet_range_in_container (m : TrustedItemModel) (a b : Nat) :
    Except IndexError Rng :=
  match TraitsRs.vet m a with
  | .error e => .error e
  | .ok s =>
    match TraitsRs.vet m b with
    | .error e => .error e
    | .ok t => .ok ⟨s.idx, t.idx, .Unknown⟩

end ParticleRs

namespace ContainerRs

/-- Rust `Container::vet` for a raw `u32` particle (src/container.rs lines
187-189) delegates to the particle's `vet_in_container`. -/
def vet (m : TrustedItemModel) (ix : Nat) : Except IndexError Ix :=
  ParticleRs.vet_in_container m ix

/-- Rust `Container::vet_or_end`, src/container.rs lines 192-198:
`particle == len` yields `self.end()` (the `Unknown`-proof end index);
otherwise the result of `vet` with the proof erased. -/
def vet_or_end (m : TrustedItemModel) (i : Nat) : Except IndexError Ix :=
  if i = m.unitLen then .ok ⟨m.unitLen, .Unknown⟩
  else (vet m i).map Ix.erased

end ContainerRs

namespace ImplRs

/-- The backward-walk loop body of `<Character as TrustedItem<str>>::align`,
src/impl.rs lines 225-239.  The first `Nat` is the original raw offset
`idx` (what the source returns on success), the second is the cursor `i`,
the third is the remaining iterations of `for _ in 0..3`.  `none` models
reaching `debug_unreachable!()` — either through `checked_sub` underflow
(line 235) or by falling out of the loop (line 239). -/
def alignLoop (s : List Nat) (idx : Nat) : Nat → Nat → Option Nat
  | _, 0 => none
  | i, fuel + 1 =>
    if is_leading_byte (s.getD i 0) then some idx
    else
      match i with
      | 0 => none
      | j + 1 => alignLoop s idx j fuel

/-- Rust `<Character as TrustedItem<str>>::align`, src/impl.rs lines 216-240:
an offset at or past the length returns `container.end()`; otherwise walk
backward from `idx` for at most 3 loop iterations looking for a leading
byte, returning `Index::new(idx)` (the ORIGINAL offset) when one is found,
and hitting `debug_unreachable!()` (modelled `none`) otherwise. -/
def Character.align (s : List Nat) (idx : Nat) : Option Nat :=
  if idx ≥ s.length then some s.length
  else alignLoop s idx idx 3

end ImplRs

/-- The bytes of the UTF-8 test string from the spec's scenario:
"a" (61), the arrow U+2192 (E2 86 92), the CJK character U+4E2D
(E4 B8 AD), and the emoji U+1F600 (F0 9F 98 80) — 11 bytes, with
item boundaries at offsets 0, 1, 4, 7 and end sentinel 11. -/
def specStrBytes : List Nat :=
  [0x61, 0xE2, 0x86, 0x92, 0xE4, 0xB8, 0xAD, 0xF0, 0x9F, 0x98, 0x80]

/-- The bytes of the single-codepoint UTF-8 string holding U+1F600,
a 4-byte sequence. -/
def emojiBytes : List Nat := [0xF0, 0x9F, 0x98, 0x80]

namespace IndexRs

/-- Rust `Range::from`, src/index.rs lines 144-149: build an `Unknown` range
from any two trusted indices, with no ordering check. -/
def Range.from_ (s e : Nat) : Rng := ⟨s, e, .Unknown⟩

/-- Rust `Range::is_empty`, src/index.rs lines 171-174. -/
def Range.is_empty (r : Rng) : Bool := r.end_ ≤ r.start

/-- Rust `Range::nonempty`, src/index.rs lines 176-183. -/
def Range.nonempty (r : Rng) : Option Rng :=
  if Range.is_empty r then none
  else some ⟨r.start, r.end_, .NonEmpty⟩

/-- Rust `Range::split_at`, src/index.rs lines 195-208: when
`start <= index <= end`, both halves are returned as plain
(`Unknown`-proof) ranges. -/
def Range.split_at (r : Rng) (index : Nat) : Option (Rng × Rng) :=
  if r.start ≤ index ∧ index ≤ r.end_ then
    some (⟨r.start, index, .Unknown⟩, ⟨index, r.end_, .Unknown⟩)
  else none

/-- Rust `Range::join`, src/index.rs lines 232-246: requires exact adjacency
`self.end == other.start`; the result spans `self.start..other.end` and
carries the `ProofAdd` sum of the two proofs. -/
def Range.join (a b : Rng) : Option Rng :=
  if a.end_ = b.start then some ⟨a.start, b.end_, proofAdd a.proof b.proof⟩
  else none

/-- Rust `Range::join_cover`, src/index.rs lines 248-259: min of the starts,
max of the ends, `ProofAdd` sum of the proofs. -/
def Range.join_cover (a b : Rng) : Rng :=
  ⟨min a.start b.start, max a.end_ b.end_, proofAdd a.proof b.proof⟩

end IndexRs

namespace IndexRangeRs

/-- Rust `Range::is_empty`, src/index/range.rs lines 151-154. -/
def Range.is_empty (r : Rng) : Bool := r.end_ ≤ r.start

/-- Rust `Range::nonempty`, src/index/range.rs lines 82-90. -/
def Range.nonempty (r : Rng) : Option Rng :=
  if Range.is_empty r then none
  else some ⟨r.start, r.end_, .NonEmpty⟩

/-- Rust `Range::join`, src/index/range.rs lines 267-281. -/
def Range.join (a b : Rng) : Option Rng :=
  if a.end_ = b.start then some ⟨a.start, b.end_, proofAdd a.proof b.proof⟩
  else none

/-- Rust `Range::join_cover`, src/index/range.rs lines 283-293: KEEPS
`self.start` and takes only the max of the two ends (doc: "Extend the
range to the end of `other`"), with the `ProofAdd` sum of the proofs. -/
def Range.join_cover (a b : Rng) : Rng :=
  ⟨a.start, max a.end_ b.end_, proofAdd a.proof b.proof⟩

/-- Rust `Range::join_cover_both`, src/index/range.rs lines 295-307: min of the
starts, max of the ends, `ProofAdd` sum of the proofs. -/
def Range.join_cover_both (a b : Rng) : Rng :=
  ⟨min a.start b.start, max a.end_ b.end_, proofAdd a.proof b.proof⟩

end IndexRangeRs

namespace SimpleRs

/-- Rust `simple::Range::join_cover`, src/particle/simple/range.rs lines
158-170: min of the starts, max of the ends, `ProofAdd` sum. -/
def Range.join_cover (a b : Rng) : Rng :=
  ⟨min a.start b.start, max a.end_ b.end_, proofAdd a.proof b.proof⟩

/-- Rust `simple::Range::split_at`, src/particle/simple/range.rs lines 119-133:
accepts `start <= index <= end`; the second half keeps the proof of the
split index (modelled as `Unknown` since the claims only split at plain
indices). -/
def Range.split_at (r : Rng) (index : Nat) : Option (Rng × Rng) :=
  if r.start ≤ index ∧ index ≤ r.end_ then
    some (⟨r.start, index, .Unknown⟩, ⟨index, r.end_, .Unknown⟩)
  else none

end SimpleRs

namespace PerfectRs

/-- Rust `perfect::Range::contains`, src/particle/perfect/range.rs lines 82-85:
`start <= index && index < end`. -/
def Range.contains (r : Rng) (index : Nat) : Bool :=
  r.start ≤ index && index < r.end_

/-- Rust `perfect::Range::split_at`, src/particle/perfect/range.rs lines
97-111: guarded by `contains` (so the one-past-the-end index of the range
is REJECTED); the first half is a plain range, the second keeps the
receiver's proof parameter. -/
def Range.split_at (r : Rng) (index : Nat) : Option (Rng × Rng) :=
  if Range.contains r index then
    some (⟨r.start, index, .Unknown⟩, ⟨index, r.end_, r.proof⟩)
  else none

/-- Rust `perfect::Range::join`, src/particle/perfect/range.rs lines 113-134:
requires `self.end() == other.start()`; result spans
`self.start..other.end` with the `ProofAdd` sum. -/
def Range.join (a b : Rng) : Option Rng :=
  if a.end_ = b.start then some ⟨a.start, b.end_, proofAdd a.proof b.proof⟩
  else none

/-- Rust `perfect::Range::join_cover`, src/particle/perfect/range.rs lines
136-148: min of the starts, max of the ends, `ProofAdd` sum. -/
def Range.join_cover (a b : Rng) : Rng :=
  ⟨min a.start b.start, max a.end_ b.end_, proofAdd a.proof b.proof⟩

end PerfectRs

/-! ## Theorems -/

/-- C1, counterexample.  The claim says `container.vet(r)` returns `Ok`
when `r == length`.  On the raw-integer path actually taken by
`Container::vet` (the `vettable_int` impl of `Vettable::vet_in_container`,
src/particle/mod.rs lines 178-193), vetting the offset 11 on the 11-byte
UTF-8 container "a→中😀" returns `Err(OutOfBounds)` instead. -/
theorem c1_counterexample :
    ParticleRs.vet_in_container (strModel specStrBytes) 11 =
      .error .OutOfBounds ∧
    (strModel specStrBytes).unitLen = 11 := by
  constructor
  · rfl
  · rfl

/-- C1, amended.  The default `TrustedItem::vet` behaves as the claim
states: `Ok` (always with the `Unknown` proof, also at `r == length`) iff
`r == length` or `r` is an in-bounds item boundary, `Invalid` for
in-bounds non-boundaries, `OutOfBounds` for `r > length`.  The
raw-integer `Container::vet` path (`Vettable::vet_in_container`) instead
returns `OutOfBounds` for every `r >= length`, including `r == length`,
and `Ok` with a `NonEmpty` proof exactly on in-bounds item boundaries. -/
theorem c1_amended (m : TrustedItemModel) (r : Nat) :
    (TraitsRs.vet m r = .ok ⟨r, .Unknown⟩ ↔
      r = m.unitLen ∨ (r < m.unitLen ∧ m.vetInbounds r = true)) ∧
    (TraitsRs.vet m r = .error .Invalid ↔
      r < m.unitLen ∧ m.vetInbounds r = false) ∧
    (TraitsRs.vet m r = .error .OutOfBounds ↔ m.unitLen < r) ∧
    (ParticleRs.vet_in_container m r = .ok ⟨r, .NonEmpty⟩ ↔
      r < m.unitLen ∧ m.vetInbounds r = true) ∧
    (ParticleRs.vet_in_container m r = .error .Invalid ↔
      r < m.unitLen ∧ m.vetInbounds r = false) ∧
    (ParticleRs.vet_in_container m r = .error .OutOfBounds ↔
      m.unitLen ≤ r) := by
  unfold TraitsRs.vet ParticleRs.vet_in_container Ix.erased
  split_ifs with h1 h2 h3 h4 h5 <;> simp_all <;> omega

/-- C2 (code bug).  Through the public API of src/index/range.rs, the
`Unknown` empty range `[5, 5)` joined via `join_cover` with the legally
obtained `NonEmpty` range `[0, 2)` produces a range carrying the
`NonEmpty` proof whose `start == end == 5`, so its `is_empty()` is
`true` — contradicting the file's own safety comment (lines 25-29:
`NonEmpty` implies `start < end`) and the claimed invariant. -/
theorem c2_empty_nonempty_range :
    IndexRangeRs.Range.nonempty ⟨0, 2, .Unknown⟩ = some ⟨0, 2, .NonEmpty⟩ ∧
    IndexRangeRs.Range.join_cover ⟨5, 5, .Unknown⟩ ⟨0, 2, .NonEmpty⟩ =
      ⟨5, 5, .NonEmpty⟩ ∧
    IndexRangeRs.Range.is_empty ⟨5, 5, .NonEmpty⟩ = true := by
  refine ⟨rfl, rfl, rfl⟩

/-- C3 (code bug).  On the UTF-8 container "a→中😀" (boundaries 0,1,4,7,11),
`align(5)` returns 5 — the original, mid-item offset (the source returns
`Index::new(idx)` instead of the cursor `i` at which it found the leading
byte) — although byte 5 is not a leading byte and byte 4 is, so the
nearest boundary at or below 5 is 4 as the claim states. -/
theorem c3_align_returns_misaligned :
    ImplRs.Character.align specStrBytes 5 = some 5 ∧
    ImplRs.is_leading_byte (specStrBytes.getD 5 0) = false ∧
    ImplRs.is_leading_byte (specStrBytes.getD 4 0) = true ∧
    specStrBytes.length = 11 := by
  refine ⟨rfl, by decide, by decide, rfl⟩

/-- C4 (code bug).  On the valid 4-byte UTF-8 container "😀"
(F0 9F 98 80), `align(3)` falls out of the `for _ in 0..3` loop after
checking only offsets 3, 2 and 1 and reaches the `debug_unreachable!()`
branch (modelled as `none`), even though offset 0 holds a leading byte:
three checks cover only two backward steps, but the last byte of a 4-byte
codepoint is three steps from its leading byte. -/
theorem c4_align_unreachable_on_4byte :
    ImplRs.Character.align emojiBytes 3 = none ∧
    emojiBytes.length = 4 ∧
    ImplRs.is_leading_byte (emojiBytes.getD 0 0) = true := by
  refine ⟨rfl, rfl, by decide⟩

/-- C5, counterexample.  The two leading-byte predicates disagree at the
byte value 0xF8: the bit-mask test of src/utf8.rs rejects it (no pattern
matches 11111xxx) while the signed-comparison test of src/impl.rs accepts
it (0xF8 as i8 is -8 >= -64). -/
theorem c5_counterexample :
    Utf8Rs.is_leading_byte 0xF8 = false ∧
    ImplRs.is_leading_byte 0xF8 = true := by
  refine ⟨by decide, by decide⟩

set_option maxRecDepth 4096 in
/-- C5, amended.  The two predicates agree on every byte 0x00..=0xF7
(every byte that can occur in valid UTF-8); on 0xF8..=0xFF (pattern
11111xxx) the signed test returns `true` while the mask test returns
`false` — in general the signed test equals the mask test OR-ed with
membership in 0xF8..=0xFF. -/
theorem c5_amended :
    (∀ b : Fin 0xF8, Utf8Rs.is_leading_byte b.val = ImplRs.is_leading_byte b.val) ∧
    (∀ b : Fin 0x100,
      ImplRs.is_leading_byte b.val =
        (Utf8Rs.is_leading_byte b.val || decide (0xF8 ≤ b.val))) := by
  refine ⟨by decide, by decide⟩

/-- C6 (confirmed).  For `Range::join` of src/index.rs: the join succeeds
exactly when `a.end == b.start`; the result is `a.start..b.end` carrying
the `ProofAdd` sum of the proofs, and that sum is `NonEmpty` exactly when
either operand's proof is (`combine(Unknown, Q) = Q`). -/
theorem c6_join (a b : Rng) :
    ((IndexRs.Range.join a b).isSome ↔ a.end_ = b.start) ∧
    (∀ r : Rng, IndexRs.Range.join a b = some r ↔
      a.end_ = b.start ∧ r = ⟨a.start, b.end_, proofAdd a.proof b.proof⟩) ∧
    (proofAdd a.proof b.proof = .NonEmpty ↔
      a.proof = .NonEmpty ∨ b.proof = .NonEmpty) := by
  refine ⟨?_, ?_, ?_⟩
  · unfold IndexRs.Range.join
    split_ifs with h <;> simp [h]
  · intro r
    unfold IndexRs.Range.join
    split_ifs with h <;> simp [h]
    exact eq_comm
  · cases ha : a.proof <;> cases hb : b.proof <;> simp [proofAdd]

/-- C7, counterexample.  The `join_cover` of src/index/range.rs applied to
`a = [5, 6)` and `b = [0, 2)` keeps `a`'s start and yields `[5, 6)`,
not the claimed `[min 5 0, max 6 2) = [0, 6)`. -/
theorem c7_counterexample :
    IndexRangeRs.Range.join_cover ⟨5, 6, .Unknown⟩ ⟨0, 2, .Unknown⟩ =
      ⟨5, 6, .Unknown⟩ ∧
    min 5 0 = 0 ∧ (5 : Nat) ≠ 0 := by
  refine ⟨rfl, rfl, by decide⟩

/-- C7, amended.  The `join_cover` implementations of src/index.rs,
src/particle/simple/range.rs and src/particle/perfect/range.rs take the
min of the starts and the max of the ends with the combined proof, as
claimed; the variant in src/index/range.rs instead keeps `a.start` and
takes only the max of the ends (that file's `join_cover_both` is the
min/max covering operation). -/
theorem c7_amended (a b : Rng) :
    IndexRs.Range.join_cover a b =
      ⟨min a.start b.start, max a.end_ b.end_, proofAdd a.proof b.proof⟩ ∧
    SimpleRs.Range.join_cover a b =
      ⟨min a.start b.start, max a.end_ b.end_, proofAdd a.proof b.proof⟩ ∧
    PerfectRs.Range.join_cover a b =
      ⟨min a.start b.start, max a.end_ b.end_, proofAdd a.proof b.proof⟩ ∧
    IndexRangeRs.Range.join_cover a b =
      ⟨a.start, max a.end_ b.end_, proofAdd a.proof b.proof⟩ ∧
    IndexRangeRs.Range.join_cover_both a b =
      ⟨min a.start b.start, max a.end_ b.end_, proofAdd a.proof b.proof⟩ ∧
    (proofAdd a.proof b.proof = .NonEmpty ↔
      a.proof = .NonEmpty ∨ b.proof = .NonEmpty) := by
  refine ⟨rfl, rfl, rfl, rfl, rfl, ?_⟩
  cases a.proof <;> cases b.proof <;> simp [proofAdd]

/-- C8, counterexample.  `perfect::Range::split_at` (src/particle/perfect/
range.rs) is guarded by `contains`, which excludes the range's end index:
splitting `[0, 2)` at the index 2 returns `None`, although
`start <= 2 <= end` and the claim demands `Some`. -/
theorem c8_counterexample :
    PerfectRs.Range.split_at ⟨0, 2, .Unknown⟩ 2 = none ∧
    (0 : Nat) ≤ 2 ∧ (2 : Nat) ≤ 2 := by
  refine ⟨rfl, by decide, by decide⟩

/-- C8, amended.  For every `idx` with `start <= idx <= end`, the
`split_at` of src/index.rs (and of src/particle/simple/range.rs) returns
the halves `start..idx` and `idx..end`, and `join`-ing them succeeds and
rebuilds the original offsets; the `split_at` of
src/particle/perfect/range.rs does the same only for `idx < end`
(returning `None` at `idx == end`), and on that domain its halves also
rejoin to the original offsets. -/
theorem c8_amended (r : Rng) (i : Nat) (h1 : r.start ≤ i) (h2 : i ≤ r.end_) :
    (IndexRs.Range.split_at r i =
      some (⟨r.start, i, .Unknown⟩, ⟨i, r.end_, .Unknown⟩) ∧
     IndexRs.Range.join ⟨r.start, i, .Unknown⟩ ⟨i, r.end_, .Unknown⟩ =
      some ⟨r.start, r.end_, .Unknown⟩) ∧
    (SimpleRs.Range.split_at r i =
      some (⟨r.start, i, .Unknown⟩, ⟨i, r.end_, .Unknown⟩)) ∧
    (PerfectRs.Range.split_at r i =
      if i < r.end_ then some (⟨r.start, i, .Unknown⟩, ⟨i, r.end_, r.proof⟩)
      else none) ∧
    (PerfectRs.Range.join ⟨r.start, i, .Unknown⟩ ⟨i, r.end_, r.proof⟩ =
      some ⟨r.start, r.end_, r.proof⟩) := by
  refine ⟨⟨?_, ?_⟩, ?_, ?_, ?_⟩
  · unfold IndexRs.Range.split_at
    simp [h1, h2]
  · unfold IndexRs.Range.join
    simp [proofAdd]
  · unfold SimpleRs.Range.split_at
    simp [h1, h2]
  · unfold PerfectRs.Range.split_at PerfectRs.Range.contains
    split_ifs with h <;> simp_all
  · unfold PerfectRs.Range.join
    simp [proofAdd]

/-- C8, witness: the amended statement instantiated on the range `[0, 2)`
split at the index 1. -/
theorem c8_witness :
    (IndexRs.Range.split_at ⟨0, 2, .Unknown⟩ 1 =
      some (⟨0, 1, .Unknown⟩, ⟨1, 2, .Unknown⟩) ∧
     IndexRs.Range.join ⟨0, 1, .Unknown⟩ ⟨1, 2, .Unknown⟩ =
      some ⟨0, 2, .Unknown⟩) ∧
    (SimpleRs.Range.split_at ⟨0, 2, .Unknown⟩ 1 =
      some (⟨0, 1, .Unknown⟩, ⟨1, 2, .Unknown⟩)) ∧
    (PerfectRs.Range.split_at ⟨0, 2, .Unknown⟩ 1 =
      if 1 < 2 then some (⟨0, 1, .Unknown⟩, ⟨1, 2, .Unknown⟩) else none) ∧
    (PerfectRs.Range.join ⟨0, 1, .Unknown⟩ ⟨1, 2, .Unknown⟩ =
      some ⟨0, 2, .Unknown⟩) :=
  c8_amended ⟨0, 2, .Unknown⟩ 1 (by decide) (by decide)

/-- C9 (code bug).  Two public paths build a decreasing range, violating
the claimed `start <= end` invariant and the `debug_assert!(start <= end)`
of `simple::Range::new`: `Range::from` of src/index.rs applied to the
indices 2 and 0, and `Container::vet(4..1)` on the UTF-8 container
"a→中😀" (both 4 and 1 are valid boundaries, vetted independently with no
ordering check). -/
theorem c9_decreasing_range :
    IndexRs.Range.from_ 2 0 = ⟨2, 0, .Unknown⟩ ∧
    IndexRs.Range.is_empty ⟨2, 0, .Unknown⟩ = true ∧
    ParticleRs.vet_range_in_container (strModel specStrBytes) 4 1 =
      .ok ⟨4, 1, .Unknown⟩ ∧
    ¬((4 : Nat) ≤ 1) := by
  refine ⟨rfl, rfl, rfl, by decide⟩

/-- C10 (confirmed).  `Container::vet_or_end` accepts the one-past-the-end
offset with the `Unknown`-proof end index, and otherwise is exactly
`Container::vet` with the proof erased: it succeeds precisely on item
boundaries below the length plus the end offset, with `OutOfBounds` for
`i > length` and `Invalid` for in-bounds non-boundaries. -/
theorem c10_vet_or_end (m : TrustedItemModel) (i : Nat) :
    (ContainerRs.vet_or_end m i = .ok ⟨i, .Unknown⟩ ↔
      i = m.unitLen ∨ (i < m.unitLen ∧ m.vetInbounds i = true)) ∧
    (ContainerRs.vet_or_end m i = .error .OutOfBounds ↔ m.unitLen < i) ∧
    (ContainerRs.vet_or_end m i = .error .Invalid ↔
      i < m.unitLen ∧ m.vetInbounds i = false) ∧
    (ContainerRs.vet_or_end m i = (ContainerRs.vet m i).map Ix.erased ∨
      i = m.unitLen) := by
  unfold ContainerRs.vet_or_end ContainerRs.vet ParticleRs.vet_in_container
  split_ifs with h1 h2 h3 <;> simp_all [Ix.erased, Except.map] <;> omega
